import Mathlib

/-!
Verification of the ToDo-API task store (`src/main.py`, `src/routers/tasks.py`).

The program keeps a global mutable list `tasks_db` of task dicts and exposes
CRUD operations over it.  We embed the store as a `List Task`, timestamps
(`datetime.now()`) as an explicit `Nat` clock parameter, and each operation as
a function from the store (plus its arguments) to a result together with the
store after the call.  Fallible operations return `Except Err`.
-/

namespace ToDo

/-- Error taxonomy of the service: `HTTPException` with status 404 or 400. -/
inductive Err where
  | NotFound
  | InvalidArgument
  deriving DecidableEq, Repr

/-- HTTP status code each error kind is raised with in the source. -/
def Err.statusCode : Err → Nat
  | .NotFound => 404
  | .InvalidArgument => 400

/-- A task record, the dict shape used throughout `tasks.py` and the seed data
of `main.py`.  `description` is `None`-able; `completed_at` is absent (`none`)
until `complete_task` sets it; timestamps are abstract `Nat` instants. -/
structure Task where
  id : Nat
  title : String
  description : Option String
  is_important : Bool
  is_urgent : Bool
  quadrant : String
  completed : Bool
  completed_at : Option Nat
  created_at : Nat
  deriving DecidableEq, Repr

/-- The quadrant chain from `create_task` (`tasks.py` lines 121-128) and
`update_task` (lines 167-174): important∧urgent → Q1, important∧¬urgent → Q2,
¬important∧urgent → Q3, otherwise Q4. -/
def quadrant_of (imp urg : Bool) : String :=
  if imp && urg then "Q1"
  else if imp && !urg then "Q2"
  else if !imp && urg then "Q3"
  else "Q4"

/-- `next((task for task in tasks_db if task["id"] == task_id), None)`:
first task with the given id, if any. -/
def find_task (db : List Task) (id : Nat) : Option Task :=
  db.find? (fun t => t.id == id)

/-- Input of `create_task` (the `TaskCreate` request body).
Modelled from the spec: `schemas.py` is not in the repository snapshot;
§4.1 gives create's input as (title, description?, is_important, is_urgent). -/
structure TaskCreate where
  title : String
  description : Option String
  is_important : Bool
  is_urgent : Bool
  deriving DecidableEq, Repr

/-- Input of `update_task` (the `TaskUpdate` request body after
`model_dump(exclude_unset=True)`).  Modelled from the spec: `schemas.py` is
not in the repository snapshot; §4.1 and §9 describe a sparse patch where each
field is independently present-or-absent and an explicitly supplied null IS
applied, so each field is `Option`-wrapped (`none` = omitted by the caller)
and `description`'s supplied value may itself be null. -/
structure TaskUpdate where
  title : Option String
  description : Option (Option String)
  is_important : Option Bool
  is_urgent : Option Bool
  deriving DecidableEq, Repr

/-- `for field, value in update_data.items(): task[field] = value` followed by
the quadrant recomputation guarded by
`if "is_important" in update_data or "is_urgent" in update_data`
(`tasks.py` lines 161-174). -/
def applyPatch (p : TaskUpdate) (t : Task) : Task :=
  let t1 : Task :=
    { t with
      title := p.title.getD t.title
      description := p.description.getD t.description
      is_important := p.is_important.getD t.is_important
      is_urgent := p.is_urgent.getD t.is_urgent }
  if p.is_important.isSome || p.is_urgent.isSome then
    { t1 with quadrant := quadrant_of t1.is_important t1.is_urgent }
  else
    t1

/-- Mutating the first task with the given id in place (the found dict is
mutated, and the list keeps holding it). -/
def updateById (db : List Task) (id : Nat) (f : Task → Task) : List Task :=
  match db with
  | [] => []
  | t :: ts => if t.id == id then f t :: ts else t :: updateById ts id f

/-- `tasks_db.remove(task)` where `task` is the first dict with the given id:
removes that one element, leaving the rest in order. -/
def removeFirstById (db : List Task) (id : Nat) : List Task :=
  match db with
  | [] => []
  | t :: ts => if t.id == id then ts else t :: removeFirstById ts id

/-- `GET /tasks` (`get_all_tasks`): returns `{"count": len(tasks_db),
"tasks": tasks_db}`. -/
def get_all_tasks (db : List Task) : Nat × List Task :=
  (db.length, db)

/-- Substring containment over char lists, `sub in hay` in Python. -/
def containsSub (hay sub : List Char) : Bool :=
  match hay with
  | [] => sub.isEmpty
  | _ :: rest => sub.isPrefixOf hay || containsSub rest sub

/-- The filter of `search_tasks` (`tasks.py` lines 52-56):
`(task.get("title") and query in task["title"].lower()) or
 (task.get("description") and query in task["description"].lower())`.
Python truthiness of a missing/None/empty-string field is falsity. -/
def task_matches (query : String) (t : Task) : Bool :=
  (!(t.title == "") && containsSub t.title.toLower.toList query.toList)
  || (match t.description with
      | some d => !(d == "") && containsSub d.toLower.toList query.toList
      | none => false)

/-- `GET /tasks/search?q=` (`search_tasks`): 400 when `len(q) < 2`, else the
case-insensitive substring filter.  The handler never mutates `tasks_db`,
so the store component passes through. -/
def search_tasks (db : List Task) (q : String) :
    Except Err (List Task) × List Task :=
  if q.length < 2 then
    (Except.error Err.InvalidArgument, db)
  else
    (Except.ok (db.filter (task_matches q.toLower)), db)

/-- `GET /tasks/quadrant/{quadrant}` (`get_tasks_by_quadrant`): 400 unless the
parameter is one of Q1..Q4, else filter on equality. Read-only. -/
def get_tasks_by_quadrant (db : List Task) (quadrant : String) :
    Except Err (List Task) × List Task :=
  if quadrant == "Q1" || quadrant == "Q2" || quadrant == "Q3" || quadrant == "Q4" then
    (Except.ok (db.filter (fun t => t.quadrant == quadrant)), db)
  else
    (Except.error Err.InvalidArgument, db)

/-- `GET /tasks/status/{status}` (`get_tasks_by_status`): 404 unless the
parameter is "completed" or "pending"; filters on the completed flag.
Read-only. -/
def get_tasks_by_status (db : List Task) (s : String) :
    Except Err (List Task) × List Task :=
  if s == "completed" || s == "pending" then
    if s == "completed" then
      (Except.ok (db.filter (fun t => t.completed)), db)
    else
      (Except.ok (db.filter (fun t => !t.completed)), db)
  else
    (Except.error Err.NotFound, db)

/-- `GET /tasks/{task_id}` (`get_task_by_id`): the first task with that id, or
404. Read-only. -/
def get_task_by_id (db : List Task) (id : Nat) :
    Except Err Task × List Task :=
  match find_task db id with
  | none => (Except.error Err.NotFound, db)
  | some t => (Except.ok t, db)

/-- `POST /tasks` (`create_task`, `tasks.py` lines 119-145): derives the
quadrant, allocates `max([t["id"] for t in tasks_db], default=0) + 1`, builds
the record with `completed=False`, `created_at=now`, no `completed_at` key,
and appends it.  Always succeeds. -/
def create_task (db : List Task) (c : TaskCreate) (now : Nat) :
    Task × List Task :=
  let quadrant := quadrant_of c.is_important c.is_urgent
  let new_id := (db.map Task.id).foldl Nat.max 0 + 1
  let new_task : Task :=
    { id := new_id
      title := c.title
      description := c.description
      is_important := c.is_important
      is_urgent := c.is_urgent
      quadrant := quadrant
      completed := false
      completed_at := none
      created_at := now }
  (new_task, db ++ [new_task])

/-- `PUT /tasks/{task_id}` (`update_task`, `tasks.py` lines 149-176): find the
task or 404; apply the present patch fields in place; recompute the quadrant
when the patch carries `is_important` or `is_urgent`. -/
def update_task (db : List Task) (id : Nat) (p : TaskUpdate) :
    Except Err Task × List Task :=
  match find_task db id with
  | none => (Except.error Err.NotFound, db)
  | some t =>
    let t1 := applyPatch p t
    (Except.ok t1, updateById db id (fun u => applyPatch p u))

/-- `PATCH /tasks/{task_id}/complete` (`complete_task`, `tasks.py` lines
179-191): find the task or 404; set `completed = True` and
`completed_at = now` unconditionally. -/
def complete_task (db : List Task) (id : Nat) (now : Nat) :
    Except Err Task × List Task :=
  match find_task db id with
  | none => (Except.error Err.NotFound, db)
  | some t =>
    let t1 : Task := { t with completed := true, completed_at := some now }
    (Except.ok t1, updateById db id (fun u => { u with completed := true, completed_at := some now }))

/-- `DELETE /tasks/{task_id}` (`delete_task`, `tasks.py` lines 194-205): find
the task or 404; `tasks_db.remove(task)` drops exactly that first matching
element. -/
def delete_task (db : List Task) (id : Nat) :
    Except Err Unit × List Task :=
  match find_task db id with
  | none => (Except.error Err.NotFound, db)
  | some _ => (Except.ok (), removeFirstById db id)

/-- First seed task of `main.py` `tasks_db` (lines 17-26). -/
def seed_task_1 : Task :=
  { id := 1
    title := "Сдать проект по FastAPI"
    description := some "Завершить разработку API и написать документацию"
    is_important := true
    is_urgent := true
    quadrant := "Q1"
    completed := false
    completed_at := none
    created_at := 0 }

/-- Second seed task of `main.py` `tasks_db` (lines 27-36). -/
def seed_task_2 : Task :=
  { id := 2
    title := "Изучить SQLAlchemy"
    description := some "Прочитать документацию и попробовать примеры"
    is_important := true
    is_urgent := false
    quadrant := "Q2"
    completed := false
    completed_at := none
    created_at := 0 }

/-- Third seed task of `main.py` `tasks_db` (lines 37-46); its description is
`None`. -/
def seed_task_3 : Task :=
  { id := 3
    title := "Сходить на лекцию"
    description := none
    is_important := false
    is_urgent := true
    quadrant := "Q3"
    completed := false
    completed_at := none
    created_at := 0 }

/-- Fourth seed task of `main.py` `tasks_db` (lines 47-56); the only completed
one. -/
def seed_task_4 : Task :=
  { id := 4
    title := "Посмотреть сериал"
    description := some "Новый сезон любимого сериала"
    is_important := false
    is_urgent := false
    quadrant := "Q4"
    completed := true
    completed_at := none
    created_at := 0 }

/-- The initial store: the four-task seed list `tasks_db` of `main.py`
(lines 16-57).  The router's `database.py` module is not in the snapshot;
per the spec (§8) the seed is these same four example tasks.  The startup
timestamps `datetime.now()` are abstracted as instant 0. -/
def seed_tasks : List Task :=
  [seed_task_1, seed_task_2, seed_task_3, seed_task_4]

/-- Store states reachable from the seed by any sequence of create, update,
complete and delete calls. -/
inductive Reach : List Task → Prop where
  | seed : Reach seed_tasks
  | create (db : List Task) (c : TaskCreate) (now : Nat) :
      Reach db → Reach (create_task db c now).2
  | update (db : List Task) (id : Nat) (p : TaskUpdate) :
      Reach db → Reach (update_task db id p).2
  | complete (db : List Task) (id now : Nat) :
      Reach db → Reach (complete_task db id now).2
  | delete (db : List Task) (id : Nat) :
      Reach db → Reach (delete_task db id).2

/-- The data-model invariant: a task's stored quadrant agrees with the
four-way rule on its current importance/urgency pair. -/
def quadrantConsistent (t : Task) : Prop :=
  t.quadrant = quadrant_of t.is_important t.is_urgent

/-! ### Helper lemmas -/

theorem le_foldl_max (a : Nat) (l : List Nat) : a ≤ l.foldl Nat.max a := by
  induction l generalizing a with
  | nil => exact Nat.le_refl a
  | cons x xs ih => exact Nat.le_trans (Nat.le_max_left a x) (ih (Nat.max a x))

theorem mem_le_foldl_max (l : List Nat) (a x : Nat) :
    x ∈ l → x ≤ l.foldl Nat.max a := by
  induction l generalizing a with
  | nil => intro hx; cases hx
  | cons y ys ih =>
    intro hx
    rcases List.mem_cons.mp hx with h | h
    · subst h
      exact Nat.le_trans (Nat.le_max_right a x) (le_foldl_max (Nat.max a x) ys)
    · exact ih (Nat.max a y) h

theorem foldl_max_eq_or_mem (l : List Nat) (a : Nat) :
    l.foldl Nat.max a = a ∨ l.foldl Nat.max a ∈ l := by
  induction l generalizing a with
  | nil => exact Or.inl rfl
  | cons y ys ih =>
    rcases ih (Nat.max a y) with h | h
    · rcases Nat.le_total a y with hle | hle
      · right
        have hmax : Nat.max a y = y := Nat.max_eq_right hle
        rw [List.foldl_cons, h, hmax]
        exact List.mem_cons_self y ys
      · left
        have hmax : Nat.max a y = a := Nat.max_eq_left hle
        rw [List.foldl_cons, h, hmax]
    · exact Or.inr (List.mem_cons_of_mem y h)

theorem applyPatch_id (p : TaskUpdate) (t : Task) : (applyPatch p t).id = t.id := by
  unfold applyPatch
  split <;> rfl

theorem updateById_map_id (db : List Task) (id : Nat) (f : Task → Task)
    (hf : ∀ u, (f u).id = u.id) :
    (updateById db id f).map Task.id = db.map Task.id := by
  induction db with
  | nil => rfl
  | cons t ts ih =>
    unfold updateById
    by_cases h : t.id == id
    · simp [h, hf]
    · simp [h, ih]

theorem mem_updateById (db : List Task) (id : Nat) (f : Task → Task) (t : Task)
    (ht : t ∈ updateById db id f) : t ∈ db ∨ ∃ u ∈ db, t = f u := by
  induction db with
  | nil => cases ht
  | cons u us ih =>
    unfold updateById at ht
    by_cases h : u.id == id
    · rw [if_pos h] at ht
      rcases List.mem_cons.mp ht with h1 | h1
      · exact Or.inr ⟨u, List.mem_cons_self u us, h1⟩
      · exact Or.inl (List.mem_cons_of_mem u h1)
    · rw [if_neg h] at ht
      rcases List.mem_cons.mp ht with h1 | h1
      · exact Or.inl (h1 ▸ List.mem_cons_self u us)
      · rcases ih h1 with h2 | ⟨v, hv, hveq⟩
        · exact Or.inl (List.mem_cons_of_mem u h2)
        · exact Or.inr ⟨v, List.mem_cons_of_mem u hv, hveq⟩

theorem find_task_updateById (db : List Task) (id : Nat) (f : Task → Task) (t : Task)
    (h : find_task db id = some t) (hf : (f t).id = t.id) :
    find_task (updateById db id f) id = some (f t) := by
  induction db with
  | nil => simp [find_task] at h
  | cons u us ih =>
    unfold find_task List.find? at h
    unfold updateById
    by_cases hm : u.id == id
    · rw [if_pos hm]
      simp [hm] at h
      subst h
      unfold find_task List.find?
      rw [hf]
      simp [hm]
    · rw [if_neg hm]
      simp [hm] at h
      unfold find_task List.find?
      simp only [hm, cond_false]
      exact ih h

theorem removeFirstById_sublist (db : List Task) (id : Nat) :
    List.Sublist (removeFirstById db id) db := by
  induction db with
  | nil => exact List.Sublist.refl []
  | cons t ts ih =>
    unfold removeFirstById
    by_cases h : t.id == id
    · rw [if_pos h]
      exact List.sublist_cons_self t ts
    · rw [if_neg h]
      exact List.Sublist.cons₂ t ih

theorem mem_removeFirstById (db : List Task) (id : Nat) (u : Task)
    (hu : u ∈ db) (hne : u.id ≠ id) : u ∈ removeFirstById db id := by
  induction db with
  | nil => cases hu
  | cons t ts ih =>
    unfold removeFirstById
    by_cases h : t.id == id
    · rw [if_pos h]
      rcases List.mem_cons.mp hu with h1 | h1
      · exact absurd (h1 ▸ eq_of_beq h) hne
      · exact h1
    · rw [if_neg h]
      rcases List.mem_cons.mp hu with h1 | h1
      · exact h1 ▸ List.mem_cons_self t (removeFirstById ts id)
      · exact List.mem_cons_of_mem t (ih h1)

/-! ### Claim theorems -/

/-- C4: `create` allocates the new id as (maximum existing id, or 0 when the
store is empty) + 1: an empty store yields id 1, a store whose maximum id is N
yields N + 1 regardless of gaps, and the new id differs from every existing
id. -/
theorem create_id_allocation (db : List Task) (c : TaskCreate) (now : Nat) :
    (create_task db c now).1.id = (db.map Task.id).foldl Nat.max 0 + 1 ∧
    (db = [] → (create_task db c now).1.id = 1) ∧
    (∀ N, (∃ u ∈ db, u.id = N) → (∀ u ∈ db, u.id ≤ N) →
      (create_task db c now).1.id = N + 1) ∧
    (∀ u ∈ db, u.id ≠ (create_task db c now).1.id) := by
  refine ⟨rfl, ?_, ?_, ?_⟩
  · intro h
    subst h
    rfl
  · intro N hex hub
    rcases hex with ⟨u, hu, hid⟩
    have hNmem : N ∈ db.map Task.id := hid ▸ List.mem_map_of_mem Task.id hu
    have hge : N ≤ (db.map Task.id).foldl Nat.max 0 :=
      mem_le_foldl_max (db.map Task.id) 0 N hNmem
    have hle : (db.map Task.id).foldl Nat.max 0 ≤ N := by
      rcases foldl_max_eq_or_mem (db.map Task.id) 0 with h0 | hmem
      · omega
      · rcases List.mem_map.mp hmem with ⟨v, hv, hveq⟩
        exact hveq ▸ hub v hv
    have : (db.map Task.id).foldl Nat.max 0 = N := Nat.le_antisymm hle hge
    show (db.map Task.id).foldl Nat.max 0 + 1 = N + 1
    omega
  · intro u hu
    have : u.id ≤ (db.map Task.id).foldl Nat.max 0 :=
      mem_le_foldl_max (db.map Task.id) 0 u.id (List.mem_map_of_mem Task.id hu)
    show u.id ≠ (db.map Task.id).foldl Nat.max 0 + 1
    omega

/-- C4 witness: on the seed store (maximum id 4) create allocates id 5, and
on the empty store it allocates id 1. -/
theorem create_id_allocation_witness :
    (create_task seed_tasks ⟨"X", none, false, false⟩ 9).1.id = 4 + 1 :=
  (create_id_allocation seed_tasks ⟨"X", none, false, false⟩ 9).2.2.1 4
    ⟨seed_task_4, by simp [seed_tasks], rfl⟩ (by decide)

/-- C5: `create` always succeeds and returns a task whose quadrant follows
the four-way importance/urgency rule, whose completed flag is false, and
which is appended at the end of the collection. -/
theorem create_spec (db : List Task) (c : TaskCreate) (now : Nat) :
    (create_task db c now).1.quadrant = quadrant_of c.is_important c.is_urgent ∧
    (c.is_important = true → c.is_urgent = true →
      (create_task db c now).1.quadrant = "Q1") ∧
    (c.is_important = true → c.is_urgent = false →
      (create_task db c now).1.quadrant = "Q2") ∧
    (c.is_important = false → c.is_urgent = true →
      (create_task db c now).1.quadrant = "Q3") ∧
    (c.is_important = false → c.is_urgent = false →
      (create_task db c now).1.quadrant = "Q4") ∧
    (create_task db c now).1.completed = false ∧
    (create_task db c now).1.title = c.title ∧
    (create_task db c now).1.description = c.description ∧
    (create_task db c now).1.is_important = c.is_important ∧
    (create_task db c now).1.is_urgent = c.is_urgent ∧
    (create_task db c now).2 = db ++ [(create_task db c now).1] := by
  refine ⟨rfl, ?_, ?_, ?_, ?_, rfl, rfl, rfl, rfl, rfl, rfl⟩ <;>
    intro h1 h2 <;> simp [create_task, quadrant_of, h1, h2]

/-- C5 witness: creating an important, non-urgent task on the seed store
yields a Q2 task. -/
theorem create_spec_witness :
    (create_task seed_tasks ⟨"Y", some "d", true, false⟩ 3).1.quadrant = "Q2" :=
  (create_spec seed_tasks ⟨"Y", some "d", true, false⟩ 3).2.2.1 rfl rfl

/-- C6: an invalid quadrant filter fails with `InvalidArgument` (HTTP 400)
while an invalid status filter fails with `NotFound` (HTTP 404): the two
analogous invalid-filter cases yield distinct error kinds. -/
theorem invalid_filter_error_kinds (db : List Task) (q s : String) :
    (q ≠ "Q1" → q ≠ "Q2" → q ≠ "Q3" → q ≠ "Q4" →
      (get_tasks_by_quadrant db q).1 = Except.error Err.InvalidArgument) ∧
    (s ≠ "completed" → s ≠ "pending" →
      (get_tasks_by_status db s).1 = Except.error Err.NotFound) ∧
    Err.InvalidArgument.statusCode = 400 ∧
    Err.NotFound.statusCode = 404 ∧
    Err.InvalidArgument ≠ Err.NotFound := by
  refine ⟨?_, ?_, rfl, rfl, by decide⟩
  · intro h1 h2 h3 h4
    simp [get_tasks_by_quadrant, h1, h2, h3, h4]
  · intro h1 h2
    simp [get_tasks_by_status, h1, h2]

/-- C6 witness: `by_quadrant("Q5")` yields InvalidArgument and
`by_status("done")` yields NotFound on the seed store. -/
theorem invalid_filter_error_kinds_witness :
    (get_tasks_by_quadrant seed_tasks "Q5").1 = Except.error Err.InvalidArgument ∧
    (get_tasks_by_status seed_tasks "done").1 = Except.error Err.NotFound :=
  ⟨(invalid_filter_error_kinds seed_tasks "Q5" "done").1
      (by decide) (by decide) (by decide) (by decide),
    (invalid_filter_error_kinds seed_tasks "Q5" "done").2.1
      (by decide) (by decide)⟩

/-- C7: `search(q)` fails with `InvalidArgument` (HTTP 400) exactly when the
query is shorter than 2 characters; at length 2 and above it succeeds with
the case-insensitive substring filter. -/
theorem search_length_boundary (db : List Task) (q : String) :
    ((search_tasks db q).1 = Except.error Err.InvalidArgument ↔ q.length < 2) ∧
    (2 ≤ q.length →
      (search_tasks db q).1 = Except.ok (db.filter (task_matches q.toLower))) := by
  unfold search_tasks
  by_cases h : q.length < 2
  · refine ⟨by simp [h], ?_⟩
    intro h2
    omega
  · refine ⟨by simp [h], ?_⟩
    intro _
    simp [h]

/-- C7 witness: a 1-character query fails and a 2-character query succeeds on
the seed store. -/
theorem search_length_boundary_witness :
    (search_tasks seed_tasks "a").1 = Except.error Err.InvalidArgument ∧
    (search_tasks seed_tasks "ab").1 =
      Except.ok (seed_tasks.filter (task_matches ("ab").toLower)) :=
  ⟨(search_length_boundary seed_tasks "a").1.mpr (by decide),
    (search_length_boundary seed_tasks "ab").2 (by decide)⟩

/-- C1: `update` on a stored task recomputes the quadrant from the post-patch
importance/urgency values (the missing one taken from the existing value)
exactly when the patch carries `is_important` or `is_urgent`; with neither
present, the quadrant is returned unchanged whatever else the patch holds. -/
theorem update_quadrant_recompute (db : List Task) (id : Nat) (p : TaskUpdate)
    (t : Task) (h : find_task db id = some t) :
    (update_task db id p).1 = Except.ok (applyPatch p t) ∧
    ((p.is_important ≠ none ∨ p.is_urgent ≠ none) →
      (applyPatch p t).quadrant =
        quadrant_of (p.is_important.getD t.is_important)
          (p.is_urgent.getD t.is_urgent)) ∧
    (p.is_important = none → p.is_urgent = none →
      (applyPatch p t).quadrant = t.quadrant) := by
  refine ⟨by simp [update_task, h], ?_, ?_⟩
  · intro hsome
    have hs : p.is_important.isSome || p.is_urgent.isSome := by
      rcases hsome with h1 | h1 <;> simp [Option.isSome_iff_ne_none, h1]
    simp [applyPatch, hs]
  · intro h1 h2
    simp [applyPatch, h1, h2]

/-- C1 witness: patching only `is_urgent := false` on seed task 1 (important,
urgent, Q1) recomputes the quadrant from the existing importance and the new
urgency. -/
theorem update_quadrant_recompute_witness :
    (applyPatch ⟨none, none, none, some false⟩ seed_task_1).quadrant =
      quadrant_of (Option.getD none seed_task_1.is_important)
        (Option.getD (some false) seed_task_1.is_urgent) :=
  (update_quadrant_recompute seed_tasks 1 ⟨none, none, none, some false⟩
      seed_task_1 rfl).2.1 (Or.inr (by decide))

/-- C3: `update` is a sparse patch: the returned task keeps every field the
patch omits (id, completed, completed_at, created_at always; title,
description, importance, urgency when absent), while every field the patch
supplies — including an explicit null description — overwrites the stored
value. -/
theorem update_sparse_patch (db : List Task) (id : Nat) (p : TaskUpdate)
    (t : Task) (h : find_task db id = some t) :
    (update_task db id p).1 = Except.ok (applyPatch p t) ∧
    (applyPatch p t).id = t.id ∧
    (applyPatch p t).completed = t.completed ∧
    (applyPatch p t).completed_at = t.completed_at ∧
    (applyPatch p t).created_at = t.created_at ∧
    (p.title = none → (applyPatch p t).title = t.title) ∧
    (∀ v, p.title = some v → (applyPatch p t).title = v) ∧
    (p.description = none → (applyPatch p t).description = t.description) ∧
    (∀ v, p.description = some v → (applyPatch p t).description = v) ∧
    (p.is_important = none → (applyPatch p t).is_important = t.is_important) ∧
    (∀ b, p.is_important = some b → (applyPatch p t).is_important = b) ∧
    (p.is_urgent = none → (applyPatch p t).is_urgent = t.is_urgent) ∧
    (∀ b, p.is_urgent = some b → (applyPatch p t).is_urgent = b) := by
  refine ⟨by simp [update_task, h], ?_, ?_, ?_, ?_, ?_, ?_, ?_, ?_, ?_, ?_, ?_, ?_⟩ <;>
    unfold applyPatch <;> split <;>
    first
      | rfl
      | (intro hfield; simp [hfield])
      | (intro v hfield; simp [hfield])

/-- C3 witness: a patch that explicitly nulls the description and supplies a
new title, applied through `update` to seed task 2, overwrites those two
fields. -/
theorem update_sparse_patch_witness :
    (applyPatch ⟨some "Новый заголовок", some none, none, none⟩ seed_task_2).description
      = none :=
  (update_sparse_patch seed_tasks 2 ⟨some "Новый заголовок", some none, none, none⟩
      seed_task_2 rfl).2.2.2.2.2.2.2.2.1 none rfl

theorem update_task_snd (db : List Task) (id : Nat) (p : TaskUpdate) :
    (update_task db id p).2 = db ∨
    (update_task db id p).2 = updateById db id (fun u => applyPatch p u) := by
  cases hf : find_task db id <;> simp [update_task, hf]

theorem complete_task_snd (db : List Task) (id now : Nat) :
    (complete_task db id now).2 = db ∨
    (complete_task db id now).2 =
      updateById db id (fun u => { u with completed := true, completed_at := some now }) := by
  cases hf : find_task db id <;> simp [complete_task, hf]

theorem delete_task_snd (db : List Task) (id : Nat) :
    (delete_task db id).2 = db ∨
    (delete_task db id).2 = removeFirstById db id := by
  cases hf : find_task db id <;> simp [delete_task, hf]

theorem applyPatch_quadrantConsistent (p : TaskUpdate) (t : Task)
    (h : quadrantConsistent t) : quadrantConsistent (applyPatch p t) := by
  cases hi : p.is_important <;> cases hu : p.is_urgent <;>
    simp [applyPatch, quadrantConsistent, hi, hu]
  exact h

/-- C8: `complete` fails with `NotFound` when the id is absent, otherwise it
unconditionally sets the completed flag and refreshes `completed_at` (also on
an already-completed task), returns the updated record, and a subsequent
`get` observes `completed = true` with a non-null `completed_at`. -/
theorem complete_spec (db : List Task) (id now : Nat) :
    (find_task db id = none →
      (complete_task db id now).1 = Except.error Err.NotFound) ∧
    (∀ t, find_task db id = some t →
      (complete_task db id now).1 =
        Except.ok { t with completed := true, completed_at := some now } ∧
      (get_task_by_id (complete_task db id now).2 id).1 =
        Except.ok { t with completed := true, completed_at := some now } ∧
      ({ t with completed := true, completed_at := some now } : Task).completed = true ∧
      ({ t with completed := true, completed_at := some now } : Task).completed_at ≠ none) := by
  constructor
  · intro h
    simp [complete_task, h]
  · intro t h
    have hfind :
        find_task (updateById db id
            (fun u => { u with completed := true, completed_at := some now })) id =
          some { t with completed := true, completed_at := some now } :=
      find_task_updateById db id
        (fun u => { u with completed := true, completed_at := some now }) t h rfl
    refine ⟨by simp [complete_task, h], ?_, rfl, by simp⟩
    simp [complete_task, h, get_task_by_id, hfind]

/-- C8 witness: completing the already-completed seed task 4 refreshes its
completion timestamp and returns the record. -/
theorem complete_spec_witness :
    (complete_task seed_tasks 4 11).1 =
      Except.ok { seed_task_4 with completed := true, completed_at := some 11 } :=
  ((complete_spec seed_tasks 4 11).2 seed_task_4 rfl).1

/-- C10: every failing operation leaves the store unchanged: an `update`,
`complete` or `delete` that returns an error (absent id), and a `search` that
returns an error (query shorter than 2), all pass the store through
untouched. -/
theorem error_atomicity (db : List Task) (id : Nat) (p : TaskUpdate)
    (now : Nat) (q : String) (e : Err) :
    ((update_task db id p).1 = Except.error e → (update_task db id p).2 = db) ∧
    ((complete_task db id now).1 = Except.error e →
      (complete_task db id now).2 = db) ∧
    ((delete_task db id).1 = Except.error e → (delete_task db id).2 = db) ∧
    ((search_tasks db q).1 = Except.error e → (search_tasks db q).2 = db) := by
  refine ⟨?_, ?_, ?_, ?_⟩
  · cases hf : find_task db id with
    | none => intro _; simp [update_task, hf]
    | some t => intro hc; simp [update_task, hf] at hc
  · cases hf : find_task db id with
    | none => intro _; simp [complete_task, hf]
    | some t => intro hc; simp [complete_task, hf] at hc
  · cases hf : find_task db id with
    | none => intro _; simp [delete_task, hf]
    | some t => intro hc; simp [delete_task, hf] at hc
  · intro _
    unfold search_tasks
    split <;> rfl

/-- C10 witness: updating the absent id 99 on the seed store fails and leaves
the store exactly as it was. -/
theorem error_atomicity_witness :
    (update_task seed_tasks 99 ⟨none, none, none, none⟩).2 = seed_tasks :=
  (error_atomicity seed_tasks 99 ⟨none, none, none, none⟩ 0 "" Err.NotFound).1 rfl

/-- C9: `list_all` returns the collection as held, `create` appends at the
end, `update` and `complete` keep every task at its position, and a
successful `delete` removes only the matching task, keeping the remaining
tasks in their relative order (the result is an order-preserving sublist
containing every task with a different id). -/
theorem order_preservation (db : List Task) :
    (get_all_tasks db).2 = db ∧
    (∀ c now, (create_task db c now).2 = db ++ [(create_task db c now).1]) ∧
    (∀ id p, ((update_task db id p).2).map Task.id = db.map Task.id) ∧
    (∀ id now, ((complete_task db id now).2).map Task.id = db.map Task.id) ∧
    (∀ id, List.Sublist ((delete_task db id).2) db) ∧
    (∀ id u, u ∈ db → u.id ≠ id → u ∈ (delete_task db id).2) := by
  refine ⟨rfl, fun c now => rfl, ?_, ?_, ?_, ?_⟩
  · intro id p
    rcases update_task_snd db id p with h | h <;> rw [h]
    exact updateById_map_id db id _ (fun u => applyPatch_id p u)
  · intro id now
    rcases complete_task_snd db id now with h | h <;> rw [h]
    exact updateById_map_id db id _ (fun u => rfl)
  · intro id
    rcases delete_task_snd db id with h | h <;> rw [h]
    exact removeFirstById_sublist db id
  · intro id u hu hne
    rcases delete_task_snd db id with h | h <;> rw [h]
    · exact hu
    · exact mem_removeFirstById db id u hu hne

/-- C9 witness: deleting the middle seed task 2 keeps seed task 3 in the
store. -/
theorem order_preservation_witness :
    seed_task_3 ∈ (delete_task seed_tasks 2).2 :=
  (order_preservation seed_tasks).2.2.2.2.2 2 seed_task_3
    (by simp [seed_tasks]) (by decide)

/-- C2: in every store state reachable from the seed by create, update,
complete and delete calls, every task's quadrant agrees with the four-way
rule on its current importance/urgency pair — no operation leaves a stale
quadrant. -/
theorem quadrant_invariant (db : List Task) (hr : Reach db) :
    ∀ t ∈ db, quadrantConsistent t := by
  induction hr with
  | seed =>
    intro t ht
    simp [seed_tasks] at ht
    rcases ht with h | h | h | h <;> subst h <;> rfl
  | create db c now _ ih =>
    intro t ht
    have ht' : t ∈ db ++ [(create_task db c now).1] := ht
    rcases List.mem_append.mp ht' with h | h
    · exact ih t h
    · have heq : t = (create_task db c now).1 := List.mem_singleton.mp h
      subst heq
      rfl
  | update db id p _ ih =>
    intro t ht
    rcases update_task_snd db id p with h | h <;> rw [h] at ht
    · exact ih t ht
    · rcases mem_updateById db id _ t ht with h1 | ⟨u, hu, hueq⟩
      · exact ih t h1
      · exact hueq ▸ applyPatch_quadrantConsistent p u (ih u hu)
  | complete db id now _ ih =>
    intro t ht
    rcases complete_task_snd db id now with h | h <;> rw [h] at ht
    · exact ih t ht
    · rcases mem_updateById db id _ t ht with h1 | ⟨u, hu, hueq⟩
      · exact ih t h1
      · exact hueq ▸ (ih u hu)
  | delete db id _ ih =>
    intro t ht
    rcases delete_task_snd db id with h | h <;> rw [h] at ht
    · exact ih t ht
    · exact ih t ((removeFirstById_sublist db id).subset ht)

/-- C2 witness: the invariant instantiated at the seed state, for seed
task 1. -/
theorem quadrant_invariant_witness : quadrantConsistent seed_task_1 :=
  quadrant_invariant seed_tasks Reach.seed seed_task_1 (by simp [seed_tasks])

end ToDo
